import Mathlib

/-!
Road-avoidance routing options.

A shallow embedding of `libs/routing/routing_options.cpp` and of the Android
binding `sdk/routing/RoutingOptions.cpp`, followed by the properties proved
about them.

Machine integers are natural numbers; every place where the C++ narrows to
`uint8_t` carries an explicit `% 256`.
-/

namespace routing

/-! ## Data model -/

/-- The underlying type of `RoutingOptions::Road`, `uint8_t`. -/
abbrev RoadType := Nat

/-- A value of `enum class Road : uint8_t`.  An enumeration with a fixed
underlying type can hold every value of that type (this is what
`static_cast<Road>(road)` in `makeValue` relies on), so a road is its raw
value. -/
structure Road where
  raw : RoadType
  deriving DecidableEq, Repr

namespace Road

/-- Modelled from the spec: the enumerators of `RoutingOptions::Road`
(`routing_options.hpp` is not among the sources).  The spec describes them in
words only, `Usual` the empty marker, every real category a distinct
power-of-two bit and `Max` a bound past the highest real bit, and gives no
numeral; the numbering taken here, `Usual` = 0 and the four real categories
on the bits 0 to 3, is one that these words admit. -/
def Usual : Road := ⟨0⟩

/-- Modelled from the spec: enumerator `Toll`, bit `1 << 0`. -/
def Toll : Road := ⟨1⟩

/-- Modelled from the spec: enumerator `Motorway`, bit `1 << 1`. -/
def Motorway : Road := ⟨2⟩

/-- Modelled from the spec: enumerator `Ferry`, bit `1 << 2`. -/
def Ferry : Road := ⟨4⟩

/-- Modelled from the spec: enumerator `Dirty`, bit `1 << 3`. -/
def Dirty : Road := ⟨8⟩

/-- Modelled from the spec: enumerator `Max`, the sentinel bound `1 << 4`. -/
def Max : Road := ⟨16⟩

end Road

/-- The four avoidable categories, the single bits below `Max`. -/
def realRoads : List Road := [Road.Toll, Road.Motorway, Road.Ferry, Road.Dirty]

/-- The class `RoutingOptions`: one member, `RoadType m_options = 0`. -/
structure RoutingOptions where
  m_options : RoadType := 0
  deriving DecidableEq, Repr

namespace RoutingOptions

/-- The accessor `RoutingOptions::GetOptions`. -/
def GetOptions (o : RoutingOptions) : RoadType := o.m_options

/-- The method `RoutingOptions::Add`: `m_options |= static_cast<RoadType>(type)`; the
result of the promoted `|` is stored back into eight bits. -/
def Add (o : RoutingOptions) (type : Road) : RoutingOptions :=
  ⟨(o.m_options ||| type.raw) % 256⟩

/-- The method `RoutingOptions::Remove`: `m_options &= ~static_cast<RoadType>(type)`.
The operand is promoted to a 32-bit `int` before `~`, whose bit pattern is
`0xFFFFFFFF - type`; the result is stored back into eight bits. -/
def Remove (o : RoutingOptions) (type : Road) : RoutingOptions :=
  ⟨(o.m_options &&& (4294967295 - type.raw)) % 256⟩

/-- The method `RoutingOptions::Has`:
`(m_options & static_cast<RoadType>(type)) != 0`. -/
def Has (o : RoutingOptions) (type : Road) : Bool :=
  (o.m_options &&& type.raw) != 0

end RoutingOptions

/-- The helper `CreateOptions` of the unit tests: start from the default-constructed
set and `Add` every element of the list in order. -/
def CreateOptions (incl : List Road) : RoutingOptions :=
  incl.foldl RoutingOptions.Add {}


/-! ## Failure outcomes -/

/-- The ways in which the embedded code stops without a result: a failed
`CHECK`, the `UNREACHABLE()` contract, and an operation whose behaviour the
language leaves undefined (a shift by a negative or too large count). -/
inductive Failure where
  | CheckFailed
  | Unreachable
  | Undefined
  deriving DecidableEq, Repr

/-- The result of running a fallible operation. -/
inductive Outcome (α : Type) where
  | ok (a : α)
  | fatal (f : Failure)
  deriving DecidableEq, Repr

/-! ## External collaborators -/

/-- Modelled from the spec: the settings store (`platform/settings.hpp` is
not among the sources), "string-keyed entries" each holding text; an absent
key maps to `none`. -/
abbrev Store := String → Option String

/-- Reading of a run of decimal digits, most significant first. -/
def parseDigits : List Char → Nat → Option Nat
  | [], acc => some acc
  | c :: cs, acc =>
    if c.isDigit then parseDigits cs (acc * 10 + (c.toNat - 48)) else none

/-- Modelled from the spec: decoding of a stored text as an unsigned 32-bit
integer, which fails on text that is not a decimal number of that range. -/
def FromString (s : String) : Option Nat :=
  match s.data with
  | [] => none
  | cs =>
    match parseDigits cs 0 with
    | some v => if v < 4294967296 then some v else none
    | none => none

/-- Modelled from the spec: `settings::Get(key, uint32_t &)`,
"returning none on missing key or decode failure". -/
def settingsGet (st : Store) (key : String) : Option Nat :=
  match st key with
  | some text => FromString text
  | none => none

/-- Modelled from the spec: `settings::Set(key, value)`, which persists the
text under the key and touches no other entry. -/
def settingsSet (st : Store) (key : String) (value : String) : Store :=
  fun k => if k = key then some value else st k

/-- Modelled from the spec: `strings::to_string` on an `int32_t`, "the
decimal text of the raw value". -/
def to_string (i : Int) : String :=
  match i with
  | Int.ofNat n => Nat.repr n
  | Int.negSucc n => "-" ++ Nat.repr (n + 1)

/-- Modelled from the spec: `base::checked_cast<uint8_t>` applied to a
`uint32_t` (`base/checked_cast.hpp` is not among the sources), the range
check that the spec leaves to the caller of `from_raw` ("the caller is
responsible for range-checking"): the narrowing cast that checks that the
narrowed value converts back to the argument and has the same sign, and
fails the check otherwise. -/
def checked_cast (v : Nat) : Outcome RoadType :=
  let result := v % 256
  if result = v ∧ (decide (0 < result) = decide (0 < v)) then Outcome.ok result
  else Outcome.fatal Failure.CheckFailed

/-- Modelled from the spec: `enum class VehicleType` of `routing/router.hpp`,
the four travel modes and the `Count` bound. -/
inductive VehicleType where
  | Pedestrian
  | Bicycle
  | Car
  | Transit
  | Count
  deriving DecidableEq, Repr

/-! ## Persistence -/

/-- The settings key of the car mode. -/
def kAvoidRoutingOptionSettingsForCar : String := "avoid_routing_options_car"

/-- The settings key of the pedestrian mode, shared by transit. -/
def kAvoidRoutingOptionSettingsForPedestrian : String := "avoid_routing_options_pedestrian"

/-- The settings key of the bicycle mode. -/
def kAvoidRoutingOptionSettingsForBicycle : String := "avoid_routing_options_bicycle"

/-- The anonymous-namespace `LoadOptions`: the decoded value, or 0 when
`settings::Get` reports failure, narrowed by `checked_cast`. -/
def LoadOptions (st : Store) (settingsKey : String) : Outcome RoutingOptions :=
  let mode : Nat :=
    match settingsGet st settingsKey with
    | some v => v
    | none => 0
  match checked_cast mode with
  | Outcome.ok m => Outcome.ok ⟨m⟩
  | Outcome.fatal f => Outcome.fatal f

/-- The anonymous-namespace `SaveOptions`: stores
`to_string(static_cast<int32_t>(options.GetOptions()))`. -/
def SaveOptions (st : Store) (settingsKey : String) (options : RoutingOptions) : Store :=
  settingsSet st settingsKey (to_string (Int.ofNat options.GetOptions))

namespace RoutingOptions

def LoadCarOptionsFromSettings (st : Store) : Outcome RoutingOptions :=
  LoadOptions st kAvoidRoutingOptionSettingsForCar

def SaveCarOptionsToSettings (st : Store) (options : RoutingOptions) : Store :=
  SaveOptions st kAvoidRoutingOptionSettingsForCar options

def LoadPedestrianOptionsFromSettings (st : Store) : Outcome RoutingOptions :=
  LoadOptions st kAvoidRoutingOptionSettingsForPedestrian

def SavePedestrianOptionsToSettings (st : Store) (options : RoutingOptions) : Store :=
  SaveOptions st kAvoidRoutingOptionSettingsForPedestrian options

def LoadBicycleOptionsFromSettings (st : Store) : Outcome RoutingOptions :=
  LoadOptions st kAvoidRoutingOptionSettingsForBicycle

def SaveBicycleOptionsToSettings (st : Store) (options : RoutingOptions) : Store :=
  SaveOptions st kAvoidRoutingOptionSettingsForBicycle options

/-- The method `RoutingOptions::LoadOptionsFromSettings`: the `switch` over the vehicle
type; `Count` breaks out of it into `UNREACHABLE()`. -/
def LoadOptionsFromSettings (st : Store) (vehicleType : VehicleType) :
    Outcome RoutingOptions :=
  match vehicleType with
  | VehicleType.Car => LoadCarOptionsFromSettings st
  | VehicleType.Pedestrian => LoadPedestrianOptionsFromSettings st
  | VehicleType.Transit => LoadPedestrianOptionsFromSettings st
  | VehicleType.Bicycle => LoadBicycleOptionsFromSettings st
  | VehicleType.Count => Outcome.fatal Failure.Unreachable

/-- The method `RoutingOptions::SaveOptionsToSettings`: the `switch` over the vehicle
type; `Count` breaks out of it into `UNREACHABLE()` with the store as it was. -/
def SaveOptionsToSettings (st : Store) (vehicleType : VehicleType)
    (options : RoutingOptions) : Outcome Store :=
  match vehicleType with
  | VehicleType.Car => Outcome.ok (SaveCarOptionsToSettings st options)
  | VehicleType.Pedestrian => Outcome.ok (SavePedestrianOptionsToSettings st options)
  | VehicleType.Transit => Outcome.ok (SavePedestrianOptionsToSettings st options)
  | VehicleType.Bicycle => Outcome.ok (SaveBicycleOptionsToSettings st options)
  | VehicleType.Count => Outcome.fatal Failure.Unreachable

end RoutingOptions

/-- The settings key that the two `switch` statements of
`LoadOptionsFromSettings` and `SaveOptionsToSettings` dispatch a vehicle type
to; `Count` has none. -/
def settingsKeyOf : VehicleType → Option String
  | VehicleType.Car => some kAvoidRoutingOptionSettingsForCar
  | VehicleType.Pedestrian => some kAvoidRoutingOptionSettingsForPedestrian
  | VehicleType.Transit => some kAvoidRoutingOptionSettingsForPedestrian
  | VehicleType.Bicycle => some kAvoidRoutingOptionSettingsForBicycle
  | VehicleType.Count => none

/-- The four travel modes that own a persisted set. -/
def travelModes : List VehicleType :=
  [VehicleType.Car, VehicleType.Pedestrian, VehicleType.Transit, VehicleType.Bicycle]

/-! ## Classifier -/

/-- Modelled from the spec: the external classification system
(`indexer/classificator.hpp` is not among the sources), which provides "a
path-to-type-code lookup and a truncate to N components operation on type
codes".  `TruncValue type level` is the value that `ftype::TruncValue` leaves
in its in-out argument. -/
structure Classificator where
  GetTypeByPath : List String → Nat
  TruncValue : Nat → Nat → Nat

/-- Modelled from the spec: `base::SmallMap<uint32_t, Road>`
(`base/small_map.hpp` is not among the sources), the lookup table: a vector
of pairs that is appended to while building. -/
structure SmallMap where
  m_map : List (Nat × Road) := []
  deriving Repr

namespace SmallMap

/-- Modelled from the spec: "insert (type_code → category) into the lookup
table". -/
def Insert (m : SmallMap) (k : Nat) (v : Road) : SmallMap :=
  ⟨m.m_map ++ [(k, v)]⟩

/-- Modelled from the spec: "finalize the table (e.g., sort for binary
search ...)": the pairs are ordered by key. -/
def FinishBuilding (m : SmallMap) : SmallMap :=
  ⟨m.m_map.insertionSort (fun a b => a.1 ≤ b.1)⟩

/-- Modelled from the spec: the "exact-match lookup against the built
table": the position a lower-bound search reaches in a table ordered by key
is its first entry whose key is not below `k`; the entry is the answer when
its key is `k`. -/
def Find (m : SmallMap) (k : Nat) : Option Road :=
  match m.m_map.find? (fun e => decide (k ≤ e.1)) with
  | some e => if e.1 = k then some e.2 else none
  | none => none

end SmallMap

/-- The table `types[]` of the constructor of `RoutingOptionsClassifier`. -/
def classifierTypes : List (List String × Road) :=
  [ (["highway", "motorway"], Road.Motorway),
    (["hwtag", "toll"], Road.Toll),
    (["route", "ferry"], Road.Ferry),
    (["highway", "track"], Road.Dirty),
    (["highway", "road"], Road.Dirty),
    (["psurface", "unpaved_bad"], Road.Dirty),
    (["psurface", "unpaved_good"], Road.Dirty) ]

/-- The class `RoutingOptionsClassifier`: one member, the table `m_data`. -/
structure RoutingOptionsClassifier where
  m_data : SmallMap
  deriving Repr

namespace RoutingOptionsClassifier

/-- The constructor `RoutingOptionsClassifier::RoutingOptionsClassifier`:
every path of `types[]` is resolved by the classificator and inserted with
its category, then the table is finalised. -/
def create (c : Classificator) : RoutingOptionsClassifier :=
  ⟨(classifierTypes.foldl
      (fun (m : SmallMap) data => m.Insert (c.GetTypeByPath data.1) data.2) {}).FinishBuilding⟩

/-- The method `RoutingOptionsClassifier::Get`: truncate the type to two components,
then look it up. -/
def Get (self : RoutingOptionsClassifier) (c : Classificator) (type : Nat) : Option Road :=
  let type := c.TruncValue type 2
  self.m_data.Find type

end RoutingOptionsClassifier

/-! ## Priority resolver -/

/-- The function `ChooseMainRoutingOptionRoad`. -/
def ChooseMainRoutingOptionRoad (options : RoutingOptions) (isCarRouter : Bool) : Road :=
  if isCarRouter && options.Has Road.Toll then Road.Toll
  else if options.Has Road.Ferry then Road.Ferry
  else if options.Has Road.Dirty then Road.Dirty
  else if options.Has Road.Motorway then Road.Motorway
  else Road.Usual

/-- The precedence list of the spec, "evaluated top to bottom, first match
wins": toll counts for the car mode only, then ferry, dirty, motorway. -/
def precedenceSpec (is_car : Bool) : List Road :=
  (if is_car then [Road.Toll] else []) ++ [Road.Ferry, Road.Dirty, Road.Motorway]

/-- The dominant category as the spec words it: the first category of the
precedence list that the set has, `Usual` when it has none of them. -/
def chooseDominantSpec (options : RoutingOptions) (is_car : Bool) : Road :=
  ((precedenceSpec is_car).find? (fun c => options.Has c)).getD Road.Usual

/-! ## Scoped override -/

/-- The class `RoutingOptionSetter`: one member, the saved car options. -/
structure RoutingOptionSetter where
  m_saved : RoutingOptions
  deriving DecidableEq, Repr

namespace RoutingOptionSetter

/-- The constructor `RoutingOptionSetter::RoutingOptionSetter(roadsMask)`:
load the car options into `m_saved`, then save `RoutingOptions(roadsMask)`
as the car options.  A load that fails its check stops the constructor. -/
def create (st : Store) (roadsMask : RoadType) : Outcome (RoutingOptionSetter × Store) :=
  match RoutingOptions.LoadCarOptionsFromSettings st with
  | Outcome.ok saved =>
    Outcome.ok (⟨saved⟩, RoutingOptions.SaveCarOptionsToSettings st ⟨roadsMask⟩)
  | Outcome.fatal f => Outcome.fatal f

/-- The destructor `RoutingOptionSetter::~RoutingOptionSetter`: save
`m_saved` as the car options. -/
def destroy (self : RoutingOptionSetter) (st : Store) : Store :=
  RoutingOptions.SaveCarOptionsToSettings st self.m_saved

end RoutingOptionSetter

/-! ## Binding layer -/

/-- The function `makeValue` of the Android binding, on a `jint` argument:
`road = static_cast<uint8_t>(1u << static_cast<int>(option))`, then
`CHECK_LESS(road, Max)`, then `static_cast<Road>(road)`.  The shift of the
32-bit `1u` is defined for counts 0 to 31 only. -/
def makeValue (option : Int) : Outcome Road :=
  if 0 ≤ option ∧ option < 32 then
    let road : Nat := ((1 <<< option.toNat) % 4294967296) % 256
    if road < Road.Max.raw then Outcome.ok ⟨road⟩
    else Outcome.fatal Failure.CheckFailed
  else Outcome.fatal Failure.Undefined

/-! ## Compositions used to state the properties -/

/-- The outcome of `LoadOptionsFromSettings(b)` executed after
`SaveOptionsToSettings(a, v)` on the store `st`. -/
def loadAfterSave (st : Store) (a : VehicleType) (v : RoutingOptions) (b : VehicleType) :
    Outcome RoutingOptions :=
  match RoutingOptions.SaveOptionsToSettings st a v with
  | Outcome.ok st' => RoutingOptions.LoadOptionsFromSettings st' b
  | Outcome.fatal f => Outcome.fatal f

/-- The store without any entry. -/
def emptyStore : Store := fun _ => none

/-- The component names known to the example classifications. -/
def componentNames : List String :=
  ["highway", "hwtag", "route", "psurface", "motorway", "toll", "ferry", "track", "road",
    "unpaved_bad", "unpaved_good", "residential", "bridge"]

/-- The digit, from 1 to 14, that an example classification gives a component
name. -/
def componentDigit (s : String) : Nat := componentNames.indexOf s + 1

/-- A positional type code: the digits of the components of the path, base
16, first component lowest. -/
def pathCode : List String → Nat
  | [] => 0
  | s :: rest => componentDigit s % 16 + 16 * pathCode rest

/-- An example classification: a type code holds the path one base-16 digit
per component, and truncation to `n` components keeps the lowest `n` digits. -/
def positionalClassificator : Classificator :=
  ⟨pathCode, fun t n => t % 16 ^ n⟩

/-! ## Binding layer: travel-mode selector and caller-facing operations -/

/-- Modelled from the spec: `enum class RouterType` of `routing/router.hpp`
(not among the sources), the "integer mode selector" of the binding layer.
A scoped enumeration holds every value of its underlying `int`, so a router
type is its raw value; the enumerators are numbered in declaration order. -/
structure RouterType where
  raw : Int
  deriving DecidableEq, Repr

namespace RouterType

/-- Modelled from the spec: enumerator `Vehicle`, the car router. -/
def Vehicle : RouterType := ⟨0⟩

/-- Modelled from the spec: enumerator `Pedestrian`. -/
def Pedestrian : RouterType := ⟨1⟩

/-- Modelled from the spec: enumerator `Bicycle`. -/
def Bicycle : RouterType := ⟨2⟩

/-- Modelled from the spec: enumerator `Transit`. -/
def Transit : RouterType := ⟨3⟩

/-- Modelled from the spec: enumerator `Ruler`. -/
def Ruler : RouterType := ⟨4⟩

/-- Modelled from the spec: enumerator `Count`, the number of router types. -/
def Count : RouterType := ⟨5⟩

end RouterType

/-- The function `ToVehicleType` of the Android binding: the `switch` over
`static_cast<RouterType>(routerType)`; `Count` breaks out of it and a value
that matches no case skips it, both reaching `return VehicleType::Car`. -/
def ToVehicleType (routerType : Int) : VehicleType :=
  let rt : RouterType := ⟨routerType⟩
  if rt = RouterType.Vehicle then VehicleType.Car
  else if rt = RouterType.Pedestrian ∨ rt = RouterType.Transit ∨ rt = RouterType.Ruler then
    VehicleType.Pedestrian
  else if rt = RouterType.Bicycle then VehicleType.Bicycle
  else VehicleType.Car

/-- The binding `nativeHasOption`: load the options of the vehicle type, make
the road of the option, answer `Has`. -/
def nativeHasOption (st : Store) (routerType option : Int) : Outcome Bool :=
  match RoutingOptions.LoadOptionsFromSettings st (ToVehicleType routerType) with
  | Outcome.fatal f => Outcome.fatal f
  | Outcome.ok routingOptions =>
    match makeValue option with
    | Outcome.fatal f => Outcome.fatal f
    | Outcome.ok road => Outcome.ok (routingOptions.Has road)

/-- The binding `nativeAddOption`: load the options of the vehicle type, make
the road of the option, `Add` it and save the options. -/
def nativeAddOption (st : Store) (routerType option : Int) : Outcome Store :=
  match RoutingOptions.LoadOptionsFromSettings st (ToVehicleType routerType) with
  | Outcome.fatal f => Outcome.fatal f
  | Outcome.ok routingOptions =>
    match makeValue option with
    | Outcome.fatal f => Outcome.fatal f
    | Outcome.ok road =>
      RoutingOptions.SaveOptionsToSettings st (ToVehicleType routerType)
        (routingOptions.Add road)

/-- The binding `nativeRemoveOption`: load the options of the vehicle type,
make the road of the option, `Remove` it and save the options. -/
def nativeRemoveOption (st : Store) (routerType option : Int) : Outcome Store :=
  match RoutingOptions.LoadOptionsFromSettings st (ToVehicleType routerType) with
  | Outcome.fatal f => Outcome.fatal f
  | Outcome.ok routingOptions =>
    match makeValue option with
    | Outcome.fatal f => Outcome.fatal f
    | Outcome.ok road =>
      RoutingOptions.SaveOptionsToSettings st (ToVehicleType routerType)
        (routingOptions.Remove road)

/-! ## Further compositions used to state the properties -/

/-- The settings store that a call of `SaveOptionsToSettings` leaves behind,
whether it returns or stops: three branches of the `switch` call a `Save`
function, the `Count` branch reaches `UNREACHABLE()` without a call of
`settings::Set`. -/
def storeAfterSave (st : Store) (vehicleType : VehicleType) (options : RoutingOptions) :
    Store :=
  match vehicleType with
  | VehicleType.Car => RoutingOptions.SaveCarOptionsToSettings st options
  | VehicleType.Pedestrian => RoutingOptions.SavePedestrianOptionsToSettings st options
  | VehicleType.Transit => RoutingOptions.SavePedestrianOptionsToSettings st options
  | VehicleType.Bicycle => RoutingOptions.SaveBicycleOptionsToSettings st options
  | VehicleType.Count => st

/-- The three settings keys. -/
def settingsKeys : List String :=
  [kAvoidRoutingOptionSettingsForCar, kAvoidRoutingOptionSettingsForPedestrian,
    kAvoidRoutingOptionSettingsForBicycle]

/-- The full category list, the six enumerators of `Road`. -/
def allRoads : List Road :=
  [Road.Usual, Road.Toll, Road.Motorway, Road.Ferry, Road.Dirty, Road.Max]

/-- A mutating call on a set, `Add(type)` or `Remove(type)`. -/
inductive Mutation where
  | Add (type : Road)
  | Remove (type : Road)
  deriving DecidableEq, Repr

/-- The argument of a mutating call. -/
def Mutation.type : Mutation → Road
  | Mutation.Add t => t
  | Mutation.Remove t => t

/-- The set after one mutating call. -/
def Mutation.apply (o : RoutingOptions) : Mutation → RoutingOptions
  | Mutation.Add t => o.Add t
  | Mutation.Remove t => o.Remove t

/-- The set reached from the default-constructed one by a finite sequence of
mutating calls, in order. -/
def applyMutations (calls : List Mutation) : RoutingOptions :=
  calls.foldl Mutation.apply {}

/-! ## Bit-set lemmas -/

theorem and_two_pow_bne_zero (m i : Nat) : ((m &&& 2 ^ i) != 0) = m.testBit i := by
  cases h : m.testBit i with
  | true =>
    have h1 : (m &&& 2 ^ i).testBit i = true := by
      simp [Nat.testBit_and, h, Nat.testBit_two_pow_self]
    have h2 : m &&& 2 ^ i ≠ 0 := by
      intro h0
      rw [h0] at h1
      simp at h1
    simpa using h2
  | false =>
    have h1 : m &&& 2 ^ i = 0 := by
      apply Nat.eq_of_testBit_eq
      intro j
      rw [Nat.testBit_and, Nat.testBit_two_pow, Nat.zero_testBit]
      by_cases hij : i = j
      · subst hij; simp [h]
      · simp [hij]
    simp [h1]

theorem realRoads_bit {c : Road} (hc : c ∈ realRoads) : ∃ i, i < 4 ∧ c = ⟨2 ^ i⟩ := by
  simp only [realRoads, List.mem_cons, List.mem_singleton, List.not_mem_nil, or_false] at hc
  rcases hc with h | h | h | h
  · exact ⟨0, by decide, h⟩
  · exact ⟨1, by decide, h⟩
  · exact ⟨2, by decide, h⟩
  · exact ⟨3, by decide, h⟩

theorem Has_bit (o : RoutingOptions) (i : Nat) :
    o.Has ⟨2 ^ i⟩ = o.m_options.testBit i := by
  simp only [RoutingOptions.Has]
  exact and_two_pow_bne_zero _ _

theorem Has_Add_bit (o : RoutingOptions) (i j : Nat) (hi : i < 8) :
    (o.Add ⟨2 ^ j⟩).Has ⟨2 ^ i⟩ = (o.Has ⟨2 ^ i⟩ || decide (j = i)) := by
  rw [Has_bit, Has_bit]
  simp only [RoutingOptions.Add]
  rw [show (256 : Nat) = 2 ^ 8 by norm_num, Nat.testBit_mod_two_pow, Nat.testBit_or,
    Nat.testBit_two_pow]
  simp [hi]

theorem two_pow_road_inj {i j : Nat} (h : (⟨2 ^ i⟩ : Road) = ⟨2 ^ j⟩) : i = j := by
  have h1 : 2 ^ i = 2 ^ j := by injection h
  exact Nat.pow_right_injective (le_refl 2) h1

theorem Has_Add_real (o : RoutingOptions) {c x : Road} (hc : c ∈ realRoads)
    (hx : x ∈ realRoads) : (o.Add x).Has c = (o.Has c || decide (x = c)) := by
  obtain ⟨i, hi, rfl⟩ := realRoads_bit hc
  obtain ⟨j, _, rfl⟩ := realRoads_bit hx
  rw [Has_Add_bit o i j (by omega)]
  congr 1
  by_cases hji : j = i
  · subst hji; simp
  · have : (⟨2 ^ j⟩ : Road) ≠ ⟨2 ^ i⟩ := fun h => hji (two_pow_road_inj h)
    simp [hji, this]

theorem Has_foldl_Add (S : List Road) : ∀ (o : RoutingOptions),
    (∀ x ∈ S, x ∈ realRoads) → ∀ c ∈ realRoads,
      ((S.foldl RoutingOptions.Add o).Has c = true ↔ (o.Has c = true ∨ c ∈ S)) := by
  induction S with
  | nil => intro o _ c _; simp
  | cons x xs ih =>
    intro o hS c hc
    have hx : x ∈ realRoads := hS x (List.mem_cons_self _ _)
    have hxs : ∀ y ∈ xs, y ∈ realRoads := fun y hy => hS y (List.mem_cons_of_mem _ hy)
    rw [List.foldl_cons, ih (o.Add x) hxs c hc, Has_Add_real o hc hx]
    simp only [Bool.or_eq_true, decide_eq_true_eq, List.mem_cons]
    constructor
    · rintro ((h | h) | h)
      · exact Or.inl h
      · exact Or.inr (Or.inl h.symm)
      · exact Or.inr (Or.inr h)
    · rintro (h | h | h)
      · exact Or.inl (Or.inl h)
      · exact Or.inl (Or.inr h.symm)
      · exact Or.inr h

/-- C1: for every list `S` of categories drawn from Toll, Motorway, Ferry and
Dirty (any order, repeats allowed, possibly empty), the set built from the
empty one by calling `Add` on each element of `S` has a category `c` of these
four exactly when `c` occurs in `S`. -/
theorem CreateOptions_Has_iff_mem (S : List Road) (hS : ∀ x ∈ S, x ∈ realRoads)
    (c : Road) (hc : c ∈ realRoads) :
    (CreateOptions S).Has c = true ↔ c ∈ S := by
  have h := Has_foldl_Add S {} hS c hc
  have h0 : RoutingOptions.Has {} c = false := by
    simp [RoutingOptions.Has]
  rw [h0] at h
  simpa [CreateOptions] using h

theorem CreateOptions_Has_iff_mem_witness :
    (∀ x ∈ [Road.Dirty, Road.Toll, Road.Dirty], x ∈ realRoads) ∧ Road.Ferry ∈ realRoads ∧
    ((CreateOptions [Road.Dirty, Road.Toll, Road.Dirty]).Has Road.Ferry = true ↔
      Road.Ferry ∈ [Road.Dirty, Road.Toll, Road.Dirty]) :=
  ⟨by decide, by decide,
    CreateOptions_Has_iff_mem [Road.Dirty, Road.Toll, Road.Dirty] (by decide)
      Road.Ferry (by decide)⟩

open RoutingOptions

/-! ## Persistence lemmas -/

set_option maxRecDepth 100000 in
theorem FromString_to_string : ∀ n, n < 256 → FromString (to_string (Int.ofNat n)) = some n := by
  decide

theorem checked_cast_of_lt {n : Nat} (h : n < 256) : checked_cast n = Outcome.ok n := by
  have h1 : n % 256 = n := Nat.mod_eq_of_lt h
  simp [checked_cast, h1]

theorem checked_cast_of_ge {n : Nat} (h : 256 ≤ n) :
    checked_cast n = Outcome.fatal Failure.CheckFailed := by
  have h1 : n % 256 ≠ n := by
    have := Nat.mod_lt n (show 0 < 256 by decide)
    omega
  simp [checked_cast, h1]

theorem settingsGet_settingsSet_same (st : Store) (key value : String) :
    settingsGet (settingsSet st key value) key = FromString value := by
  simp [settingsGet, settingsSet]

theorem settingsGet_settingsSet_other (st : Store) {key key2 : String} (value : String)
    (h : key2 ≠ key) : settingsGet (settingsSet st key value) key2 = settingsGet st key2 := by
  simp [settingsGet, settingsSet, h]

theorem LoadOptions_SaveOptions_same (st : Store) (key : String) (v : RoutingOptions)
    (hv : v.m_options < 256) : LoadOptions (SaveOptions st key v) key = Outcome.ok v := by
  simp only [LoadOptions, SaveOptions, settingsGet_settingsSet_same, RoutingOptions.GetOptions,
    FromString_to_string _ hv, checked_cast_of_lt hv]

theorem LoadOptions_SaveOptions_other (st : Store) {key key2 : String} (v : RoutingOptions)
    (h : key2 ≠ key) : LoadOptions (SaveOptions st key v) key2 = LoadOptions st key2 := by
  simp only [LoadOptions, SaveOptions, settingsGet_settingsSet_other st _ h]

theorem LoadOptions_absent {st : Store} {key : String} (h : settingsGet st key = none) :
    LoadOptions st key = Outcome.ok ⟨0⟩ := by
  simp [LoadOptions, h, checked_cast]

theorem LoadOptions_present_lt {st : Store} {key : String} {n : Nat}
    (h : settingsGet st key = some n) (hn : n < 256) : LoadOptions st key = Outcome.ok ⟨n⟩ := by
  simp [LoadOptions, h, checked_cast_of_lt hn]

theorem LoadOptions_present_ge {st : Store} {key : String} {n : Nat}
    (h : settingsGet st key = some n) (hn : 256 ≤ n) :
    LoadOptions st key = Outcome.fatal Failure.CheckFailed := by
  simp [LoadOptions, h, checked_cast_of_ge hn]

theorem LoadOptions_ok_lt {st : Store} {key : String} {r : RoutingOptions}
    (h : LoadOptions st key = Outcome.ok r) : r.m_options < 256 := by
  cases hg : settingsGet st key with
  | none =>
    rw [LoadOptions_absent hg] at h
    injection h with h
    subst h
    decide
  | some n =>
    by_cases hn : n < 256
    · rw [LoadOptions_present_lt hg hn] at h
      injection h with h
      subst h
      exact hn
    · rw [LoadOptions_present_ge hg (by omega)] at h
      cases h

theorem LoadOptionsFromSettings_eq {m : VehicleType} {key : String}
    (h : settingsKeyOf m = some key) (st : Store) :
    LoadOptionsFromSettings st m = LoadOptions st key := by
  cases m <;> simp [settingsKeyOf] at h <;> subst h <;> rfl

theorem SaveOptionsToSettings_eq {m : VehicleType} {key : String}
    (h : settingsKeyOf m = some key) (st : Store) (v : RoutingOptions) :
    SaveOptionsToSettings st m v = Outcome.ok (SaveOptions st key v) := by
  cases m <;> simp [settingsKeyOf] at h <;> subst h <;> rfl

theorem settingsKeyOf_travelModes {m : VehicleType} (hm : m ∈ travelModes) :
    ∃ key, settingsKeyOf m = some key := by
  cases m <;> simp [travelModes] at hm <;> exact ⟨_, rfl⟩

theorem loadAfterSave_same_key {a b : VehicleType} {key : String}
    (ha : settingsKeyOf a = some key) (hb : settingsKeyOf b = some key) (st : Store)
    (v : RoutingOptions) (hv : v.m_options < 256) : loadAfterSave st a v b = Outcome.ok v := by
  simp only [loadAfterSave, SaveOptionsToSettings_eq ha, LoadOptionsFromSettings_eq hb,
    LoadOptions_SaveOptions_same st key v hv]

theorem loadAfterSave_other_key {a b : VehicleType} {ka kb : String}
    (ha : settingsKeyOf a = some ka) (hb : settingsKeyOf b = some kb) (hk : kb ≠ ka)
    (st : Store) (v : RoutingOptions) :
    loadAfterSave st a v b = LoadOptionsFromSettings st b := by
  simp only [loadAfterSave, SaveOptionsToSettings_eq ha, LoadOptionsFromSettings_eq hb,
    LoadOptions_SaveOptions_other st v hk]

/-- C2: save/load round trip. For every travel mode `m` of Car, Pedestrian,
Transit and Bicycle, every set `v` with an 8-bit raw value and every prior
store, `LoadOptionsFromSettings(m)` executed after `SaveOptionsToSettings(m, v)`
returns a set whose `GetOptions()` equals `v.GetOptions()`. -/
theorem save_load_round_trip (st : Store) (m : VehicleType) (v : RoutingOptions)
    (hm : m ∈ travelModes) (hv : v.m_options < 256) :
    ∃ r, loadAfterSave st m v m = Outcome.ok r ∧ r.GetOptions = v.GetOptions := by
  obtain ⟨key, hk⟩ := settingsKeyOf_travelModes hm
  exact ⟨v, loadAfterSave_same_key hk hk st v hv, rfl⟩

theorem save_load_round_trip_witness :
    VehicleType.Bicycle ∈ travelModes ∧ (⟨10⟩ : RoutingOptions).m_options < 256 ∧
    ∃ r, loadAfterSave emptyStore VehicleType.Bicycle ⟨10⟩ VehicleType.Bicycle = Outcome.ok r ∧
      r.GetOptions = (⟨10⟩ : RoutingOptions).GetOptions :=
  ⟨by decide, by decide,
    save_load_round_trip emptyStore VehicleType.Bicycle ⟨10⟩ (by decide) (by decide)⟩

theorem settingsKeyOf_ne {a b : VehicleType} {ka kb : String}
    (ha : settingsKeyOf a = some ka) (hb : settingsKeyOf b = some kb) (hab : a ≠ b)
    (hpt : ¬ (a = VehicleType.Pedestrian ∧ b = VehicleType.Transit))
    (htp : ¬ (a = VehicleType.Transit ∧ b = VehicleType.Pedestrian)) : kb ≠ ka := by
  cases a <;> cases b <;> simp [settingsKeyOf] at ha hb <;> subst ha <;> subst hb <;>
    first
      | decide
      | exact (hab rfl).elim
      | exact (hpt (And.intro rfl rfl)).elim
      | exact (htp (And.intro rfl rfl)).elim

/-- C3 (as the code has it): isolation between modes that persist under
different keys. For every two distinct travel modes `a` and `b` of Car,
Pedestrian, Transit and Bicycle other than the pair Pedestrian and Transit,
every set `v` and every store in which the value of `b` loads successfully,
`LoadOptionsFromSettings(b)` after `SaveOptionsToSettings(a, v)` returns the
value it returned before that save. -/
theorem save_isolated_between_keys (st : Store) (a b : VehicleType) (v r : RoutingOptions)
    (ha : a ∈ travelModes) (hb : b ∈ travelModes) (hab : a ≠ b)
    (hpt : ¬ (a = VehicleType.Pedestrian ∧ b = VehicleType.Transit))
    (htp : ¬ (a = VehicleType.Transit ∧ b = VehicleType.Pedestrian))
    (hload : LoadOptionsFromSettings st b = Outcome.ok r) :
    loadAfterSave st a v b = Outcome.ok r := by
  obtain ⟨ka, hka⟩ := settingsKeyOf_travelModes ha
  obtain ⟨kb, hkb⟩ := settingsKeyOf_travelModes hb
  rw [loadAfterSave_other_key hka hkb (settingsKeyOf_ne hka hkb hab hpt htp) st v]
  exact hload

theorem save_isolated_between_keys_witness :
    VehicleType.Pedestrian ∈ travelModes ∧ VehicleType.Car ∈ travelModes ∧
    LoadOptionsFromSettings (SaveCarOptionsToSettings emptyStore ⟨1⟩) VehicleType.Car
      = Outcome.ok ⟨1⟩ ∧
    loadAfterSave (SaveCarOptionsToSettings emptyStore ⟨1⟩) VehicleType.Pedestrian ⟨12⟩
      VehicleType.Car = Outcome.ok ⟨1⟩ :=
  ⟨by decide, by decide, by decide,
    save_isolated_between_keys (SaveCarOptionsToSettings emptyStore ⟨1⟩)
      VehicleType.Pedestrian VehicleType.Car ⟨12⟩ ⟨1⟩ (by decide) (by decide) (by decide)
      (by decide) (by decide) (by decide)⟩

/-- C3 (as stated) fails for the distinct modes Transit and Pedestrian: on the
empty store Pedestrian loads the empty set, and after saving the set with raw
value 1 for Transit it loads raw value 1. -/
theorem save_transit_changes_pedestrian :
    VehicleType.Transit ∈ travelModes ∧ VehicleType.Pedestrian ∈ travelModes ∧
    VehicleType.Transit ≠ VehicleType.Pedestrian ∧
    LoadOptionsFromSettings emptyStore VehicleType.Pedestrian = Outcome.ok ⟨0⟩ ∧
    loadAfterSave emptyStore VehicleType.Transit ⟨1⟩ VehicleType.Pedestrian = Outcome.ok ⟨1⟩ ∧
    loadAfterSave emptyStore VehicleType.Transit ⟨1⟩ VehicleType.Pedestrian
      ≠ LoadOptionsFromSettings emptyStore VehicleType.Pedestrian := by
  decide

/-- C5: absence defaults to empty. For every travel mode `m` of Car,
Pedestrian, Transit and Bicycle and every store in which `settings::Get`
reports failure for the key of `m`, `LoadOptionsFromSettings(m)` returns a set
with `GetOptions() == 0`, for which `Has(c)` is false for every category. -/
theorem load_absent_is_empty (st : Store) (m : VehicleType) (hm : m ∈ travelModes)
    (habs : ∀ key, settingsKeyOf m = some key → settingsGet st key = none) :
    ∃ r, LoadOptionsFromSettings st m = Outcome.ok r ∧ r.GetOptions = 0 ∧
      ∀ c : Road, r.Has c = false := by
  obtain ⟨key, hk⟩ := settingsKeyOf_travelModes hm
  refine ⟨⟨0⟩, ?_, rfl, ?_⟩
  · rw [LoadOptionsFromSettings_eq hk, LoadOptions_absent (habs key hk)]
  · intro c
    simp [RoutingOptions.Has]

theorem load_absent_is_empty_witness :
    VehicleType.Transit ∈ travelModes ∧
    (∀ key, settingsKeyOf VehicleType.Transit = some key →
      settingsGet (SaveCarOptionsToSettings emptyStore ⟨3⟩) key = none) ∧
    ∃ r, LoadOptionsFromSettings (SaveCarOptionsToSettings emptyStore ⟨3⟩) VehicleType.Transit
        = Outcome.ok r ∧ r.GetOptions = 0 ∧ ∀ c : Road, r.Has c = false :=
  ⟨by decide,
    by intro key hk; simp [settingsKeyOf] at hk; subst hk; decide,
    load_absent_is_empty (SaveCarOptionsToSettings emptyStore ⟨3⟩) VehicleType.Transit
      (by decide) (by intro key hk; simp [settingsKeyOf] at hk; subst hk; decide)⟩

/-- C4: `ChooseMainRoutingOptionRoad` is the fixed first-match precedence on
every input: the result is Toll if `isCarRouter` and the set has Toll,
otherwise Ferry if it has Ferry, otherwise Dirty if it has Dirty, otherwise
Motorway if it has Motorway, otherwise Usual; with the five concrete cases of
the spec. -/
theorem ChooseMainRoutingOptionRoad_precedence :
    (∀ (o : RoutingOptions) (isCarRouter : Bool),
      ChooseMainRoutingOptionRoad o isCarRouter = chooseDominantSpec o isCarRouter) ∧
    (∀ (o : RoutingOptions) (isCarRouter : Bool),
      ChooseMainRoutingOptionRoad o isCarRouter =
        if isCarRouter = true ∧ o.Has Road.Toll = true then Road.Toll
        else if o.Has Road.Ferry = true then Road.Ferry
        else if o.Has Road.Dirty = true then Road.Dirty
        else if o.Has Road.Motorway = true then Road.Motorway
        else Road.Usual) ∧
    ChooseMainRoutingOptionRoad (CreateOptions [Road.Toll, Road.Motorway, Road.Dirty]) true
      = Road.Toll ∧
    ChooseMainRoutingOptionRoad (CreateOptions [Road.Toll, Road.Motorway, Road.Dirty]) false
      = Road.Dirty ∧
    ChooseMainRoutingOptionRoad (CreateOptions [Road.Ferry, Road.Dirty]) false = Road.Ferry ∧
    ChooseMainRoutingOptionRoad (CreateOptions []) true = Road.Usual ∧
    ChooseMainRoutingOptionRoad (CreateOptions [Road.Motorway]) false = Road.Motorway := by
  refine ⟨?_, ?_, by decide, by decide, by decide, by decide, by decide⟩
  · intro o isCarRouter
    cases isCarRouter <;>
      cases ht : o.Has Road.Toll <;> cases hf : o.Has Road.Ferry <;>
      cases hd : o.Has Road.Dirty <;> cases hmw : o.Has Road.Motorway <;>
      simp [ChooseMainRoutingOptionRoad, chooseDominantSpec, precedenceSpec, List.find?, ht, hf,
        hd, hmw]
  · intro o isCarRouter
    cases isCarRouter <;>
      cases ht : o.Has Road.Toll <;> cases hf : o.Has Road.Ferry <;>
      cases hd : o.Has Road.Dirty <;> cases hmw : o.Has Road.Motorway <;>
      simp [ChooseMainRoutingOptionRoad, ht, hf, hd, hmw]

/-- C6 (the code at the failing inputs): for the option indices 4 to 7
`makeValue` fails its `CHECK`, but for every index from 8 to 31 the bit
`1 << option`, which is at least `Max`, is narrowed to eight bits before the
check, becomes 0, passes the check and `makeValue` returns `Usual`. -/
theorem makeValue_wraps_from_index_8 :
    (∀ k : Fin 4, makeValue (4 + (k.val : Int)) = Outcome.fatal Failure.CheckFailed) ∧
    (∀ k : Fin 24, Road.Max.raw ≤ 1 <<< (8 + k.val) ∧
      makeValue (8 + (k.val : Int)) = Outcome.ok Road.Usual) ∧
    makeValue 8 = Outcome.ok Road.Usual := by
  decide

/-- C7: the scoped override restores the prior car preference. For every
store in which the car value loads successfully and every mask, constructing a
`RoutingOptionSetter(roadsMask)` succeeds, and destroying it, on the store the
constructor left or on any store that later saves have produced, leaves a
store on which `LoadCarOptionsFromSettings()` returns the raw value it
returned before construction. -/
theorem RoutingOptionSetter_restores (st : Store) (roadsMask : RoadType) (r : RoutingOptions)
    (hload : LoadCarOptionsFromSettings st = Outcome.ok r) :
    ∃ setter st1, RoutingOptionSetter.create st roadsMask = Outcome.ok (setter, st1) ∧
      (∃ r1, LoadCarOptionsFromSettings (setter.destroy st1) = Outcome.ok r1 ∧
        r1.GetOptions = r.GetOptions) ∧
      ∀ mid : Store, ∃ r2, LoadCarOptionsFromSettings (setter.destroy mid) = Outcome.ok r2 ∧
        r2.GetOptions = r.GetOptions := by
  have hlt : r.m_options < 256 := LoadOptions_ok_lt hload
  have hback : ∀ mid : Store,
      LoadCarOptionsFromSettings (RoutingOptionSetter.destroy ⟨r⟩ mid) = Outcome.ok r :=
    fun mid => LoadOptions_SaveOptions_same mid kAvoidRoutingOptionSettingsForCar r hlt
  refine ⟨⟨r⟩, SaveCarOptionsToSettings st ⟨roadsMask⟩, ?_, ⟨r, hback _, rfl⟩,
    fun mid => ⟨r, hback mid, rfl⟩⟩
  simp only [RoutingOptionSetter.create, hload]

theorem RoutingOptionSetter_restores_witness :
    LoadCarOptionsFromSettings (SaveCarOptionsToSettings emptyStore ⟨9⟩) = Outcome.ok ⟨9⟩ ∧
    ∃ setter st1,
      RoutingOptionSetter.create (SaveCarOptionsToSettings emptyStore ⟨9⟩) 6
        = Outcome.ok (setter, st1) ∧
      (∃ r1, LoadCarOptionsFromSettings (setter.destroy st1) = Outcome.ok r1 ∧
        r1.GetOptions = (⟨9⟩ : RoutingOptions).GetOptions) ∧
      ∀ mid : Store, ∃ r2, LoadCarOptionsFromSettings (setter.destroy mid) = Outcome.ok r2 ∧
        r2.GetOptions = (⟨9⟩ : RoutingOptions).GetOptions :=
  ⟨by decide,
    RoutingOptionSetter_restores (SaveCarOptionsToSettings emptyStore ⟨9⟩) 6 ⟨9⟩ (by decide)⟩

/-- C8 (as the code has it): for every travel mode `m` of Car, Pedestrian,
Transit and Bicycle, `LoadOptionsFromSettings(m)` returns the empty set when
the key of `m` is absent or not decodable, returns the set with raw value `n`
when the key decodes to an integer `n` of at most 255, and fails the check of
`checked_cast` when the key decodes to an integer above 255. -/
theorem load_total_up_to_255 (st : Store) (m : VehicleType) (key : String)
    (hk : settingsKeyOf m = some key) :
    LoadOptionsFromSettings st m =
      match settingsGet st key with
      | none => Outcome.ok ⟨0⟩
      | some n => if n < 256 then Outcome.ok ⟨n⟩ else Outcome.fatal Failure.CheckFailed := by
  rw [LoadOptionsFromSettings_eq hk]
  cases hg : settingsGet st key with
  | none => exact LoadOptions_absent hg
  | some n =>
    by_cases hn : n < 256
    · simp only [hn, if_true]
      exact LoadOptions_present_lt hg hn
    · simp only [hn, if_false]
      exact LoadOptions_present_ge hg (by omega)

theorem load_total_up_to_255_witness :
    settingsKeyOf VehicleType.Bicycle = some kAvoidRoutingOptionSettingsForBicycle ∧
    LoadOptionsFromSettings (settingsSet emptyStore kAvoidRoutingOptionSettingsForBicycle "12")
      VehicleType.Bicycle =
      match settingsGet (settingsSet emptyStore kAvoidRoutingOptionSettingsForBicycle "12")
        kAvoidRoutingOptionSettingsForBicycle with
      | none => Outcome.ok ⟨0⟩
      | some n => if n < 256 then Outcome.ok ⟨n⟩ else Outcome.fatal Failure.CheckFailed :=
  ⟨rfl,
    load_total_up_to_255 (settingsSet emptyStore kAvoidRoutingOptionSettingsForBicycle "12")
      VehicleType.Bicycle kAvoidRoutingOptionSettingsForBicycle rfl⟩

/-- C8 (as stated) fails: with the text 256 under the car key, which decodes
as the unsigned integer 256, `LoadOptionsFromSettings(Car)` returns no set but
fails the check of `checked_cast`. -/
theorem load_aborts_on_256 :
    VehicleType.Car ∈ travelModes ∧
    settingsGet (settingsSet emptyStore kAvoidRoutingOptionSettingsForCar "256")
      kAvoidRoutingOptionSettingsForCar = some 256 ∧
    LoadOptionsFromSettings (settingsSet emptyStore kAvoidRoutingOptionSettingsForCar "256")
      VehicleType.Car = Outcome.fatal Failure.CheckFailed := by
  decide

/-- C10: Transit aliases Pedestrian. For every set `v` with an 8-bit raw value
and every store, loading Pedestrian after saving `v` for Transit and loading
Transit after saving `v` for Pedestrian both return raw value
`v.GetOptions()`; on every store loading Transit equals loading Pedestrian. -/
theorem transit_aliases_pedestrian (st : Store) (v : RoutingOptions)
    (hv : v.m_options < 256) :
    (∃ r, loadAfterSave st VehicleType.Transit v VehicleType.Pedestrian = Outcome.ok r ∧
      r.GetOptions = v.GetOptions) ∧
    (∃ r, loadAfterSave st VehicleType.Pedestrian v VehicleType.Transit = Outcome.ok r ∧
      r.GetOptions = v.GetOptions) ∧
    LoadOptionsFromSettings st VehicleType.Transit
      = LoadOptionsFromSettings st VehicleType.Pedestrian :=
  ⟨⟨v, @loadAfterSave_same_key VehicleType.Transit VehicleType.Pedestrian
      kAvoidRoutingOptionSettingsForPedestrian rfl rfl st v hv, rfl⟩,
    ⟨v, @loadAfterSave_same_key VehicleType.Pedestrian VehicleType.Transit
      kAvoidRoutingOptionSettingsForPedestrian rfl rfl st v hv, rfl⟩, rfl⟩

theorem transit_aliases_pedestrian_witness :
    (⟨5⟩ : RoutingOptions).m_options < 256 ∧
    (∃ r, loadAfterSave emptyStore VehicleType.Transit ⟨5⟩ VehicleType.Pedestrian
        = Outcome.ok r ∧ r.GetOptions = (⟨5⟩ : RoutingOptions).GetOptions) ∧
    (∃ r, loadAfterSave emptyStore VehicleType.Pedestrian ⟨5⟩ VehicleType.Transit
        = Outcome.ok r ∧ r.GetOptions = (⟨5⟩ : RoutingOptions).GetOptions) ∧
    LoadOptionsFromSettings emptyStore VehicleType.Transit
      = LoadOptionsFromSettings emptyStore VehicleType.Pedestrian :=
  ⟨by decide, transit_aliases_pedestrian emptyStore ⟨5⟩ (by decide)⟩

/-! ## Classifier lemmas -/

theorem Find_sorted (L : List (Nat × Road)) (hs : L.Sorted (fun a b => a.1 ≤ b.1))
    (hn : (L.map Prod.fst).Nodup) (k : Nat) (v : Road) :
    SmallMap.Find ⟨L⟩ k = some v ↔ (k, v) ∈ L := by
  induction L with
  | nil => simp [SmallMap.Find]
  | cons e es ih =>
    have hs' := List.sorted_cons.mp hs
    have hn' : e.1 ∉ es.map Prod.fst ∧ (es.map Prod.fst).Nodup := by
      simpa using hn
    have ih' := ih hs'.2 hn'.2
    by_cases hle : k ≤ e.1
    · by_cases heq : e.1 = k
      · have hfind : SmallMap.Find ⟨e :: es⟩ k = some e.2 := by
          simp [SmallMap.Find, List.find?, hle, heq]
        rw [hfind]
        constructor
        · intro h
          injection h with h
          rw [← h, ← heq]
          exact List.mem_cons_self _ _
        · intro h
          rcases List.mem_cons.mp h with h | h
          · rw [← h]
          · exact absurd (List.mem_map.mpr ⟨(k, v), h, heq.symm⟩) hn'.1
      · have hfind : SmallMap.Find ⟨e :: es⟩ k = none := by
          simp [SmallMap.Find, List.find?, hle, heq]
        rw [hfind]
        constructor
        · intro h; cases h
        · intro h
          rcases List.mem_cons.mp h with h | h
          · exact absurd (by rw [← h]) heq
          · have := hs'.1 (k, v) h
            exact absurd (Nat.le_antisymm this hle) heq
    · have hfind : SmallMap.Find ⟨e :: es⟩ k = SmallMap.Find ⟨es⟩ k := by
        simp [SmallMap.Find, List.find?, hle]
      rw [hfind, ih']
      constructor
      · intro h; exact List.mem_cons_of_mem _ h
      · intro h
        rcases List.mem_cons.mp h with h | h
        · exact absurd (by rw [← h]) hle
        · exact h

theorem Find_FinishBuilding (L : List (Nat × Road)) (hn : (L.map Prod.fst).Nodup)
    (k : Nat) (v : Road) :
    (SmallMap.FinishBuilding ⟨L⟩).Find k = some v ↔ (k, v) ∈ L := by
  haveI : IsTotal (Nat × Road) (fun a b => a.1 ≤ b.1) := ⟨fun a b => Nat.le_total a.1 b.1⟩
  haveI : IsTrans (Nat × Road) (fun a b => a.1 ≤ b.1) := ⟨fun _ _ _ h1 h2 => Nat.le_trans h1 h2⟩
  have hp := List.perm_insertionSort (fun a b : Nat × Road => a.1 ≤ b.1) L
  have hs := List.sorted_insertionSort (fun a b : Nat × Road => a.1 ≤ b.1) L
  have hn2 : ((L.insertionSort (fun a b => a.1 ≤ b.1)).map Prod.fst).Nodup :=
    ((hp.map Prod.fst).nodup_iff).mpr hn
  simp only [SmallMap.FinishBuilding]
  rw [Find_sorted _ hs hn2 k v]
  exact hp.mem_iff

theorem Get_eq_some_iff (c : Classificator)
    (hdist : (classifierTypes.map (fun d => c.GetTypeByPath d.1)).Nodup) (t : Nat) (road : Road) :
    (RoutingOptionsClassifier.create c).Get c t = some road ↔
      ∃ d ∈ classifierTypes, c.TruncValue t 2 = c.GetTypeByPath d.1 ∧ d.2 = road := by
  have hn : ((classifierTypes.map (fun d => (c.GetTypeByPath d.1, d.2))).map Prod.fst).Nodup := by
    rw [List.map_map]
    exact hdist
  have h := Find_FinishBuilding _ hn (c.TruncValue t 2) road
  have hc : (RoutingOptionsClassifier.create c).m_data =
      SmallMap.FinishBuilding ⟨classifierTypes.map (fun d => (c.GetTypeByPath d.1, d.2))⟩ := by
    simp [RoutingOptionsClassifier.create, classifierTypes, SmallMap.Insert]
  simp only [RoutingOptionsClassifier.Get, hc]
  rw [h, List.mem_map]
  constructor
  · rintro ⟨d, hd, he⟩
    injection he with h1 h2
    exact ⟨d, hd, h1.symm, h2⟩
  · rintro ⟨d, hd, h1, h2⟩
    exact ⟨d, hd, by rw [h1, h2]⟩

theorem Get_eq_none_iff (c : Classificator)
    (hdist : (classifierTypes.map (fun d => c.GetTypeByPath d.1)).Nodup) (t : Nat) :
    (RoutingOptionsClassifier.create c).Get c t = none ↔
      ∀ d ∈ classifierTypes, c.TruncValue t 2 ≠ c.GetTypeByPath d.1 := by
  constructor
  · intro h d hd he
    have := (Get_eq_some_iff c hdist t d.2).mpr ⟨d, hd, he, rfl⟩
    rw [h] at this
    cases this
  · intro h
    cases hg : (RoutingOptionsClassifier.create c).Get c t with
    | none => rfl
    | some road =>
      obtain ⟨d, hd, he, _⟩ := (Get_eq_some_iff c hdist t road).mp hg
      exact absurd he (h d hd)

theorem pathCode_two_lt (p : List String) (hp : p.length = 2) : pathCode p < 256 := by
  match p, hp with
  | [a, b], _ =>
    simp only [pathCode]
    have h1 := Nat.mod_lt (componentDigit a) (show 0 < 16 by decide)
    have h2 := Nat.mod_lt (componentDigit b) (show 0 < 16 by decide)
    omega

/-- A classification that gives distinct paths distinct type codes gives
pairwise distinct codes to the seven table paths and gives highway/residential
the code of none of them. -/
theorem injective_classification_distinct (c : Classificator)
    (hinj : Function.Injective c.GetTypeByPath) :
    (classifierTypes.map (fun d => c.GetTypeByPath d.1)).Nodup ∧
    ∀ d ∈ classifierTypes, c.GetTypeByPath ["highway", "residential"] ≠ c.GetTypeByPath d.1 := by
  constructor
  · have h : (classifierTypes.map Prod.fst).Nodup := by decide
    have h2 := h.map hinj
    rwa [List.map_map] at h2
  · intro d hd he
    have hp : ["highway", "residential"] = d.1 := hinj he
    have hno : ∀ e ∈ classifierTypes, ["highway", "residential"] ≠ e.1 := by decide
    exact hno d hd hp

theorem pathCode_two_mod (p : List String) (hp : p.length = 2) :
    pathCode p % 16 ^ 2 = pathCode p :=
  Nat.mod_eq_of_lt (by have := pathCode_two_lt p hp; omega)

/-- C9: classifier lookup is exact match on the type code truncated to two
components. Assuming that the classification gives pairwise distinct type
codes to the paths in play, the seven table paths (`hdist`) and
highway/residential against them (`hres`), as every classification that
gives distinct paths distinct codes does, and that truncating to two
components leaves a two-component code unchanged, for every type code `t`,
`Get(t)` returns a category exactly when `truncate(t, 2)` is the code of a
table path with that category and returns none otherwise; so a code whose
truncation is the code of highway/motorway yields Motorway and the code of
highway/residential yields none. -/
theorem classifier_Get_exact_match (c : Classificator)
    (hdist : (classifierTypes.map (fun d => c.GetTypeByPath d.1)).Nodup)
    (htrunc : ∀ p : List String, p.length = 2 →
      c.TruncValue (c.GetTypeByPath p) 2 = c.GetTypeByPath p)
    (hres : ∀ d ∈ classifierTypes,
      c.GetTypeByPath ["highway", "residential"] ≠ c.GetTypeByPath d.1) :
    (∀ t road, (RoutingOptionsClassifier.create c).Get c t = some road ↔
      ∃ d ∈ classifierTypes, c.TruncValue t 2 = c.GetTypeByPath d.1 ∧ d.2 = road) ∧
    (∀ t, (RoutingOptionsClassifier.create c).Get c t = none ↔
      ∀ d ∈ classifierTypes, c.TruncValue t 2 ≠ c.GetTypeByPath d.1) ∧
    (∀ t, c.TruncValue t 2 = c.GetTypeByPath ["highway", "motorway"] →
      (RoutingOptionsClassifier.create c).Get c t = some Road.Motorway) ∧
    (RoutingOptionsClassifier.create c).Get c (c.GetTypeByPath ["highway", "residential"])
      = none := by
  refine ⟨Get_eq_some_iff c hdist, Get_eq_none_iff c hdist, ?_, ?_⟩
  · intro t ht
    exact (Get_eq_some_iff c hdist t Road.Motorway).mpr
      ⟨(["highway", "motorway"], Road.Motorway), by simp [classifierTypes], ht, rfl⟩
  · rw [Get_eq_none_iff c hdist, htrunc ["highway", "residential"] rfl]
    exact hres

theorem classifier_Get_exact_match_witness :
    (classifierTypes.map (fun d => positionalClassificator.GetTypeByPath d.1)).Nodup ∧
    (∀ p : List String, p.length = 2 →
      positionalClassificator.TruncValue (positionalClassificator.GetTypeByPath p) 2
        = positionalClassificator.GetTypeByPath p) ∧
    (∀ d ∈ classifierTypes, positionalClassificator.GetTypeByPath ["highway", "residential"]
      ≠ positionalClassificator.GetTypeByPath d.1) ∧
    positionalClassificator.TruncValue
      (positionalClassificator.GetTypeByPath ["highway", "motorway", "bridge"]) 2
      = positionalClassificator.GetTypeByPath ["highway", "motorway"] ∧
    (RoutingOptionsClassifier.create positionalClassificator).Get positionalClassificator
      (positionalClassificator.GetTypeByPath ["highway", "motorway", "bridge"])
      = some Road.Motorway ∧
    (RoutingOptionsClassifier.create positionalClassificator).Get positionalClassificator
      (positionalClassificator.GetTypeByPath ["highway", "residential"]) = none :=
  have h := classifier_Get_exact_match positionalClassificator (by decide)
    pathCode_two_mod (by decide)
  ⟨by decide, pathCode_two_mod, by decide, by decide, h.2.2.1 _ (by decide), h.2.2.2⟩

/-! ## Lemmas on Remove and on sequences of calls -/

theorem testBit_complement (j i : Nat) (hj : j < 32) :
    (4294967295 - 2 ^ j).testBit i = (decide (i < 32) && !decide (j = i)) := by
  have hlt : 2 ^ j < 2 ^ 32 := Nat.pow_lt_pow_right (by decide) hj
  have h := Nat.testBit_two_pow_sub_succ hlt i
  rw [Nat.testBit_two_pow] at h
  have he : 4294967295 - 2 ^ j = 2 ^ 32 - (2 ^ j + 1) := by
    generalize 2 ^ j = x
    norm_num
    omega
  rw [he, h]

theorem Has_Remove_bit (o : RoutingOptions) (i j : Nat) (hi : i < 8) (hj : j < 32) :
    (o.Remove ⟨2 ^ j⟩).Has ⟨2 ^ i⟩ = (o.Has ⟨2 ^ i⟩ && !decide (j = i)) := by
  rw [Has_bit, Has_bit]
  simp only [RoutingOptions.Remove]
  rw [show (256 : Nat) = 2 ^ 8 by norm_num, Nat.testBit_mod_two_pow, Nat.testBit_and,
    testBit_complement j i hj]
  have h32 : i < 32 := by omega
  simp [hi, h32]

theorem Has_zero (o : RoutingOptions) : o.Has ⟨0⟩ = false := by
  simp [RoutingOptions.Has]

theorem allRoads_bit {d : Road} (hd : d ∈ allRoads) : d = ⟨0⟩ ∨ ∃ k, k < 8 ∧ d = ⟨2 ^ k⟩ := by
  simp only [allRoads, List.mem_cons, List.mem_singleton, List.not_mem_nil, or_false] at hd
  rcases hd with h | h | h | h | h | h
  · exact Or.inl h
  · exact Or.inr ⟨0, by decide, h⟩
  · exact Or.inr ⟨1, by decide, h⟩
  · exact Or.inr ⟨2, by decide, h⟩
  · exact Or.inr ⟨3, by decide, h⟩
  · exact Or.inr ⟨4, by decide, h⟩

theorem Add_lt_two_pow (n : Nat) (o : RoutingOptions) (t : Road)
    (ho : o.m_options < 2 ^ n) (ht : t.raw < 2 ^ n) : (o.Add t).m_options < 2 ^ n := by
  have h : o.m_options ||| t.raw < 2 ^ n := Nat.or_lt_two_pow ho ht
  exact Nat.lt_of_le_of_lt (Nat.mod_le (o.m_options ||| t.raw) 256) h

theorem Remove_lt_of_lt (b : Nat) (o : RoutingOptions) (t : Road) (ho : o.m_options < b) :
    (o.Remove t).m_options < b := by
  have h : o.m_options &&& (4294967295 - t.raw) ≤ o.m_options := Nat.and_le_left
  exact Nat.lt_of_le_of_lt
    (Nat.le_trans (Nat.mod_le (o.m_options &&& (4294967295 - t.raw)) 256) h) ho

theorem foldl_apply_lt_two_pow (n : Nat) (calls : List Mutation) : ∀ (o : RoutingOptions),
    o.m_options < 2 ^ n → (∀ call ∈ calls, call.type.raw < 2 ^ n) →
      (calls.foldl Mutation.apply o).m_options < 2 ^ n := by
  induction calls with
  | nil => intro o ho _; exact ho
  | cons call rest ih =>
    intro o ho hc
    have hcall := hc call (List.mem_cons_self _ _)
    have hrest : ∀ x ∈ rest, x.type.raw < 2 ^ n := fun x hx => hc x (List.mem_cons_of_mem _ hx)
    rw [List.foldl_cons]
    apply ih _ _ hrest
    cases call with
    | Add t => exact Add_lt_two_pow n o t ho hcall
    | Remove t => exact Remove_lt_of_lt _ o t ho

/-- Whatever numerals the enumerators have: a set reached from the
default-constructed one by `Add` and `Remove` calls whose arguments all have
a raw value below a power of two has a raw value below that power of two. -/
theorem applyMutations_lt_two_pow (n : Nat) (calls : List Mutation)
    (hcalls : ∀ call ∈ calls, call.type.raw < 2 ^ n) :
    (applyMutations calls).m_options < 2 ^ n :=
  foldl_apply_lt_two_pow n calls {} (Nat.two_pow_pos n) hcalls

theorem Add_raw_of_Has (m i : Nat) (hm : m < 256) (h : m.testBit i = true) :
    (m ||| 2 ^ i) % 256 = m := by
  have h1 : m ||| 2 ^ i = m := by
    apply Nat.eq_of_testBit_eq
    intro j
    rw [Nat.testBit_or, Nat.testBit_two_pow]
    by_cases hij : i = j
    · subst hij; simp [h]
    · simp [hij]
  rw [h1]
  exact Nat.mod_eq_of_lt hm

theorem Remove_raw_of_not_Has (m i : Nat) (hm : m < 256) (hi : i < 32)
    (h : m.testBit i = false) : (m &&& (4294967295 - 2 ^ i)) % 256 = m := by
  have h1 : m &&& (4294967295 - 2 ^ i) = m := by
    apply Nat.eq_of_testBit_eq
    intro j
    rw [Nat.testBit_and, testBit_complement i j hi]
    by_cases hij : i = j
    · subst hij; simp [h]
    · by_cases hj : j < 32
      · simp [hij, hj]
      · have : m.testBit j = false :=
          Nat.testBit_lt_two_pow (Nat.lt_of_lt_of_le hm
            (Nat.le_trans (by decide : 256 ≤ 2 ^ 32) (Nat.pow_le_pow_right (by decide) (by omega))))
        simp [this]
  rw [h1]
  exact Nat.mod_eq_of_lt hm

/-- C15: `Add` and `Remove` touch exactly one bit. For every set `o` with an
8-bit raw value and every category `c` of Toll, Motorway, Ferry and Dirty:
after `o.Add(c)`, `Has(c)` is true and `Has(d)` is unchanged for every other
category `d` of the full list; after `o.Remove(c)`, `Has(c)` is false and
`Has(d)` is unchanged for every other `d`; `Add(c)` leaves the raw value
unchanged when `Has(c)` held and `Remove(c)` leaves it unchanged when `Has(c)`
did not hold. -/
theorem Add_Remove_touch_one_bit (o : RoutingOptions) (c : Road)
    (ho : o.m_options < 256) (hc : c ∈ realRoads) :
    (o.Add c).Has c = true ∧
    (∀ d ∈ allRoads, d ≠ c → (o.Add c).Has d = o.Has d) ∧
    (o.Remove c).Has c = false ∧
    (∀ d ∈ allRoads, d ≠ c → (o.Remove c).Has d = o.Has d) ∧
    (o.Has c = true → (o.Add c).GetOptions = o.GetOptions) ∧
    (o.Has c = false → (o.Remove c).GetOptions = o.GetOptions) := by
  obtain ⟨i, hi, rfl⟩ := realRoads_bit hc
  have hi8 : i < 8 := by omega
  have hi32 : i < 32 := by omega
  refine ⟨?_, ?_, ?_, ?_, ?_, ?_⟩
  · rw [Has_Add_bit o i i hi8]; simp
  · intro d hd hne
    rcases allRoads_bit hd with h0 | ⟨k, hk, rfl⟩
    · subst h0; rw [Has_zero, Has_zero]
    · have hik : i ≠ k := fun h => hne (by rw [h])
      rw [Has_Add_bit o k i hk]; simp [hik]
  · rw [Has_Remove_bit o i i hi8 hi32]; simp
  · intro d hd hne
    rcases allRoads_bit hd with h0 | ⟨k, hk, rfl⟩
    · subst h0; rw [Has_zero, Has_zero]
    · have hik : i ≠ k := fun h => hne (by rw [h])
      rw [Has_Remove_bit o k i hk hi32]; simp [hik]
  · intro h
    rw [Has_bit] at h
    exact Add_raw_of_Has o.m_options i ho h
  · intro h
    rw [Has_bit] at h
    exact Remove_raw_of_not_Has o.m_options i ho hi32 h

theorem Add_Remove_touch_one_bit_witness :
    (⟨163⟩ : RoutingOptions).m_options < 256 ∧ Road.Motorway ∈ realRoads ∧
    ((⟨163⟩ : RoutingOptions).Add Road.Motorway).GetOptions = 163 ∧
    ((⟨163⟩ : RoutingOptions).Remove Road.Motorway).GetOptions = 161 ∧
    ((⟨163⟩ : RoutingOptions).Remove Road.Motorway).Has Road.Motorway = false ∧
    (∀ d ∈ allRoads, d ≠ Road.Motorway →
      ((⟨163⟩ : RoutingOptions).Remove Road.Motorway).Has d = (⟨163⟩ : RoutingOptions).Has d) :=
  have h := Add_Remove_touch_one_bit ⟨163⟩ Road.Motorway (by decide) (by decide)
  ⟨by decide, by decide, by decide, by decide, h.2.2.1, h.2.2.2.1⟩

/-- C18: the dominant category is always Usual or a member of the set. For
every set `o` and every `isCarRouter`, the result `r` of
`ChooseMainRoutingOptionRoad` is one of Usual, Toll, Ferry, Dirty and Motorway
and never Max; if `r` is not Usual then `o.Has(r)`; `r` is Toll only when
`isCarRouter` is true; `r` is Usual exactly when `o` has none of Ferry, Dirty
and Motorway and not (`isCarRouter` and `o.Has(Toll)`); a non-car call on the
set with Toll alone returns Usual. -/
theorem ChooseMainRoutingOptionRoad_member :
    (∀ (o : RoutingOptions) (isCarRouter : Bool),
      ChooseMainRoutingOptionRoad o isCarRouter ∈
        [Road.Usual, Road.Toll, Road.Ferry, Road.Dirty, Road.Motorway] ∧
      ChooseMainRoutingOptionRoad o isCarRouter ≠ Road.Max ∧
      (ChooseMainRoutingOptionRoad o isCarRouter ≠ Road.Usual →
        o.Has (ChooseMainRoutingOptionRoad o isCarRouter) = true) ∧
      (ChooseMainRoutingOptionRoad o isCarRouter = Road.Toll → isCarRouter = true) ∧
      (ChooseMainRoutingOptionRoad o isCarRouter = Road.Usual ↔
        (o.Has Road.Ferry = false ∧ o.Has Road.Dirty = false ∧ o.Has Road.Motorway = false ∧
          ¬ (isCarRouter = true ∧ o.Has Road.Toll = true)))) ∧
    (CreateOptions [Road.Toll]).GetOptions ≠ 0 ∧
    ChooseMainRoutingOptionRoad (CreateOptions [Road.Toll]) false = Road.Usual := by
  refine ⟨?_, by decide, by decide⟩
  intro o isCarRouter
  cases isCarRouter <;>
    cases ht : o.Has Road.Toll <;> cases hf : o.Has Road.Ferry <;>
    cases hd : o.Has Road.Dirty <;> cases hmw : o.Has Road.Motorway <;>
    simp [ChooseMainRoutingOptionRoad, ht, hf, hd, hmw] <;> decide

theorem Find_mem (L : List (Nat × Road)) (k : Nat) (v : Road)
    (h : SmallMap.Find ⟨L⟩ k = some v) : ∃ e ∈ L, e.2 = v := by
  simp only [SmallMap.Find] at h
  cases hf : L.find? (fun e => decide (k ≤ e.1)) with
  | none => rw [hf] at h; cases h
  | some e =>
    rw [hf] at h
    by_cases he : e.1 = k
    · simp only [he, if_true] at h
      injection h with h
      exact ⟨e, List.mem_of_find?_eq_some hf, h⟩
    · simp only [he, if_false] at h
      cases h

theorem Get_mem_classifierTypes (c : Classificator) (t : Nat) (road : Road)
    (h : (RoutingOptionsClassifier.create c).Get c t = some road) :
    ∃ d ∈ classifierTypes, d.2 = road := by
  have hc : (RoutingOptionsClassifier.create c).m_data =
      SmallMap.FinishBuilding ⟨classifierTypes.map (fun d => (c.GetTypeByPath d.1, d.2))⟩ := by
    simp [RoutingOptionsClassifier.create, classifierTypes, SmallMap.Insert]
  simp only [RoutingOptionsClassifier.Get, hc, SmallMap.FinishBuilding] at h
  obtain ⟨e, he, hv⟩ := Find_mem _ _ _ h
  have he2 := (List.perm_insertionSort (fun a b : Nat × Road => a.1 ≤ b.1) _).mem_iff.mp he
  obtain ⟨d, hd, hde⟩ := List.mem_map.mp he2
  refine ⟨d, hd, ?_⟩
  rw [← hv, ← hde]

/-- C19: the classifier only ever answers with a real road category. For
every classification and every type code `t`, `Get(t)` is either none or a
category of Toll, Motorway, Ferry and Dirty, never Usual or Max, so a single
bit below `Max`. -/
theorem classifier_Get_real_category (c : Classificator) (t : Nat) :
    (RoutingOptionsClassifier.create c).Get c t = none ∨
    ∃ road, (RoutingOptionsClassifier.create c).Get c t = some road ∧ road ∈ realRoads ∧
      road ≠ Road.Usual ∧ road ≠ Road.Max ∧ road.raw < Road.Max.raw ∧
      ∃ k, road.raw = 1 <<< k := by
  cases hg : (RoutingOptionsClassifier.create c).Get c t with
  | none => exact Or.inl rfl
  | some road =>
    refine Or.inr ⟨road, rfl, ?_⟩
    obtain ⟨d, hd, hv⟩ := Get_mem_classifierTypes c t road hg
    subst hv
    simp only [classifierTypes, List.mem_cons, List.mem_singleton, List.not_mem_nil,
      or_false] at hd
    rcases hd with h | h | h | h | h | h | h <;> subst h
    · exact ⟨by decide, by decide, by decide, by decide, 1, by decide⟩
    · exact ⟨by decide, by decide, by decide, by decide, 0, by decide⟩
    · exact ⟨by decide, by decide, by decide, by decide, 2, by decide⟩
    · exact ⟨by decide, by decide, by decide, by decide, 3, by decide⟩
    · exact ⟨by decide, by decide, by decide, by decide, 3, by decide⟩
    · exact ⟨by decide, by decide, by decide, by decide, 3, by decide⟩
    · exact ⟨by decide, by decide, by decide, by decide, 3, by decide⟩

theorem SaveOptions_key_inj {k1 k2 : String} {v : RoutingOptions}
    (h : SaveOptions emptyStore k1 v = SaveOptions emptyStore k2 v) : k1 = k2 := by
  by_contra hne
  have h1 : SaveOptions emptyStore k1 v k1 = SaveOptions emptyStore k2 v k1 := by rw [h]
  simp [SaveOptions, settingsSet, emptyStore, hne] at h1

/-- C11: the mode-to-key mapping fails fatally on `VehicleType::Count`, the
only mode other than Car, Pedestrian, Transit and Bicycle: for every set and
every store, `LoadOptionsFromSettings(Count)` and
`SaveOptionsToSettings(Count, v)` reach the unreachable-code failure, the load
does not depend on the store and the save leaves the store as it was; for each
of the four real modes exactly one of the three keys is the one loaded from
and saved to. -/
theorem mode_to_key_mapping (st : Store) (v : RoutingOptions) :
    LoadOptionsFromSettings st VehicleType.Count = Outcome.fatal Failure.Unreachable ∧
    SaveOptionsToSettings st VehicleType.Count v = Outcome.fatal Failure.Unreachable ∧
    (∀ st2 : Store, LoadOptionsFromSettings st2 VehicleType.Count
      = LoadOptionsFromSettings st VehicleType.Count) ∧
    storeAfterSave st VehicleType.Count v = st ∧
    (∀ m : VehicleType, m ∉ travelModes ↔ m = VehicleType.Count) ∧
    (∀ m ∈ travelModes, ∃! key, key ∈ settingsKeys ∧
      (∀ s, LoadOptionsFromSettings s m = LoadOptions s key) ∧
      (∀ s o, SaveOptionsToSettings s m o = Outcome.ok (SaveOptions s key o)) ∧
      (∀ s o, storeAfterSave s m o = SaveOptions s key o)) := by
  refine ⟨rfl, rfl, fun _ => rfl, rfl, fun m => by cases m <;> decide, ?_⟩
  intro m hm
  obtain ⟨key, hk⟩ := settingsKeyOf_travelModes hm
  refine ⟨key, ⟨?_, fun s => LoadOptionsFromSettings_eq hk s,
    fun s o => SaveOptionsToSettings_eq hk s o, ?_⟩, ?_⟩
  · cases m <;> simp [settingsKeyOf] at hk <;> subst hk <;> simp [settingsKeys]
  · intro s o
    cases m <;> simp [settingsKeyOf] at hk <;> subst hk <;> rfl
  · rintro key2 ⟨_, _, h2, _⟩
    have h := h2 emptyStore {}
    rw [SaveOptionsToSettings_eq hk] at h
    injection h with h
    exact (SaveOptions_key_inj h).symm

theorem LoadOptions_congr {s1 s2 : Store} {key : String} (h : s1 key = s2 key) :
    LoadOptions s1 key = LoadOptions s2 key := by
  simp only [LoadOptions, settingsGet, h]

/-- C16: save writes one key with the decimal raw value. For every travel mode
`m` of Car, Pedestrian, Transit and Bicycle, every set `v` with an 8-bit raw
value and every store, `SaveOptionsToSettings(m, v)` sets the entry under the
key of `m` (the car key for Car, the pedestrian key for Pedestrian and
Transit, the bicycle key for Bicycle) to the decimal text of `v.GetOptions()`,
a number from 0 to 255, and leaves the entry under every other key unchanged;
`LoadOptionsFromSettings(m)` reads only the key of `m`. -/
theorem save_writes_one_key (st : Store) (m : VehicleType) (v : RoutingOptions)
    (hm : m ∈ travelModes) (hv : v.m_options < 256) :
    ∃ key st', SaveOptionsToSettings st m v = Outcome.ok st' ∧
      (m = VehicleType.Car → key = "avoid_routing_options_car") ∧
      (m = VehicleType.Pedestrian ∨ m = VehicleType.Transit →
        key = "avoid_routing_options_pedestrian") ∧
      (m = VehicleType.Bicycle → key = "avoid_routing_options_bicycle") ∧
      st' key = some (Nat.repr v.GetOptions) ∧
      FromString (Nat.repr v.GetOptions) = some v.GetOptions ∧
      v.GetOptions ≤ 255 ∧
      (∀ k, k ≠ key → st' k = st k) ∧
      (∀ s1 s2 : Store, s1 key = s2 key →
        LoadOptionsFromSettings s1 m = LoadOptionsFromSettings s2 m) := by
  obtain ⟨key, hk⟩ := settingsKeyOf_travelModes hm
  refine ⟨key, SaveOptions st key v, SaveOptionsToSettings_eq hk st v, ?_, ?_, ?_, ?_,
    FromString_to_string _ hv, Nat.le_of_lt_succ hv, ?_, ?_⟩
  · intro h; subst h; simp [settingsKeyOf] at hk; rw [← hk]; rfl
  · intro h
    rcases h with h | h <;> subst h <;> simp [settingsKeyOf] at hk <;> rw [← hk] <;> rfl
  · intro h; subst h; simp [settingsKeyOf] at hk; rw [← hk]; rfl
  · simp [SaveOptions, settingsSet, to_string, RoutingOptions.GetOptions]
  · intro k hne
    simp [SaveOptions, settingsSet, hne]
  · intro s1 s2 h
    rw [LoadOptionsFromSettings_eq hk, LoadOptionsFromSettings_eq hk, LoadOptions_congr h]

theorem save_writes_one_key_witness :
    VehicleType.Transit ∈ travelModes ∧ (⟨12⟩ : RoutingOptions).m_options < 256 ∧
    ∃ key st', SaveOptionsToSettings emptyStore VehicleType.Transit ⟨12⟩ = Outcome.ok st' ∧
      (VehicleType.Transit = VehicleType.Car → key = "avoid_routing_options_car") ∧
      (VehicleType.Transit = VehicleType.Pedestrian ∨ VehicleType.Transit = VehicleType.Transit →
        key = "avoid_routing_options_pedestrian") ∧
      (VehicleType.Transit = VehicleType.Bicycle → key = "avoid_routing_options_bicycle") ∧
      st' key = some (Nat.repr (⟨12⟩ : RoutingOptions).GetOptions) ∧
      FromString (Nat.repr (⟨12⟩ : RoutingOptions).GetOptions)
        = some (⟨12⟩ : RoutingOptions).GetOptions ∧
      (⟨12⟩ : RoutingOptions).GetOptions ≤ 255 ∧
      (∀ k, k ≠ key → st' k = emptyStore k) ∧
      (∀ s1 s2 : Store, s1 key = s2 key →
        LoadOptionsFromSettings s1 VehicleType.Transit
          = LoadOptionsFromSettings s2 VehicleType.Transit) :=
  ⟨by decide, by decide,
    save_writes_one_key emptyStore VehicleType.Transit ⟨12⟩ (by decide) (by decide)⟩

/-- C17: while a scoped override is held the new mask is the active car
preference and the other modes are untouched. For every store in which the
car value loads successfully and every 8-bit mask, after constructing
`RoutingOptionSetter(roadsMask)` the car options load with raw value
`roadsMask`, the saved value of the setter is the car value loaded before
construction, and the entries under the pedestrian and bicycle keys are those
of before construction, also after destruction. -/
theorem RoutingOptionSetter_holds_mask (st : Store) (roadsMask : RoadType)
    (r : RoutingOptions) (hload : LoadCarOptionsFromSettings st = Outcome.ok r)
    (hmask : roadsMask < 256) :
    ∃ setter st1, RoutingOptionSetter.create st roadsMask = Outcome.ok (setter, st1) ∧
      (∃ r1, LoadCarOptionsFromSettings st1 = Outcome.ok r1 ∧ r1.GetOptions = roadsMask) ∧
      setter.m_saved = r ∧
      st1 kAvoidRoutingOptionSettingsForPedestrian
        = st kAvoidRoutingOptionSettingsForPedestrian ∧
      st1 kAvoidRoutingOptionSettingsForBicycle = st kAvoidRoutingOptionSettingsForBicycle ∧
      (setter.destroy st1) kAvoidRoutingOptionSettingsForPedestrian
        = st kAvoidRoutingOptionSettingsForPedestrian ∧
      (setter.destroy st1) kAvoidRoutingOptionSettingsForBicycle
        = st kAvoidRoutingOptionSettingsForBicycle := by
  refine ⟨⟨r⟩, SaveCarOptionsToSettings st ⟨roadsMask⟩, ?_, ⟨⟨roadsMask⟩, ?_, rfl⟩, rfl,
    ?_, ?_, ?_, ?_⟩
  · simp only [RoutingOptionSetter.create, hload]
  · exact LoadOptions_SaveOptions_same st kAvoidRoutingOptionSettingsForCar ⟨roadsMask⟩ hmask
  · have hne : kAvoidRoutingOptionSettingsForPedestrian ≠ kAvoidRoutingOptionSettingsForCar := by
      decide
    simp [SaveCarOptionsToSettings, SaveOptions, settingsSet, hne]
  · have hne : kAvoidRoutingOptionSettingsForBicycle ≠ kAvoidRoutingOptionSettingsForCar := by
      decide
    simp [SaveCarOptionsToSettings, SaveOptions, settingsSet, hne]
  · have hne : kAvoidRoutingOptionSettingsForPedestrian ≠ kAvoidRoutingOptionSettingsForCar := by
      decide
    simp [RoutingOptionSetter.destroy, SaveCarOptionsToSettings, SaveOptions, settingsSet, hne]
  · have hne : kAvoidRoutingOptionSettingsForBicycle ≠ kAvoidRoutingOptionSettingsForCar := by
      decide
    simp [RoutingOptionSetter.destroy, SaveCarOptionsToSettings, SaveOptions, settingsSet, hne]

theorem RoutingOptionSetter_holds_mask_witness :
    LoadCarOptionsFromSettings (SaveBicycleOptionsToSettings emptyStore ⟨4⟩) = Outcome.ok ⟨0⟩ ∧
    (6 : RoadType) < 256 ∧
    ∃ setter st1,
      RoutingOptionSetter.create (SaveBicycleOptionsToSettings emptyStore ⟨4⟩) 6
        = Outcome.ok (setter, st1) ∧
      (∃ r1, LoadCarOptionsFromSettings st1 = Outcome.ok r1 ∧ r1.GetOptions = 6) ∧
      setter.m_saved = ⟨0⟩ ∧
      st1 kAvoidRoutingOptionSettingsForPedestrian
        = (SaveBicycleOptionsToSettings emptyStore ⟨4⟩) kAvoidRoutingOptionSettingsForPedestrian ∧
      st1 kAvoidRoutingOptionSettingsForBicycle
        = (SaveBicycleOptionsToSettings emptyStore ⟨4⟩) kAvoidRoutingOptionSettingsForBicycle ∧
      (setter.destroy st1) kAvoidRoutingOptionSettingsForPedestrian
        = (SaveBicycleOptionsToSettings emptyStore ⟨4⟩) kAvoidRoutingOptionSettingsForPedestrian ∧
      (setter.destroy st1) kAvoidRoutingOptionSettingsForBicycle
        = (SaveBicycleOptionsToSettings emptyStore ⟨4⟩) kAvoidRoutingOptionSettingsForBicycle :=
  ⟨by decide, by decide,
    RoutingOptionSetter_holds_mask (SaveBicycleOptionsToSettings emptyStore ⟨4⟩) 6 ⟨0⟩
      (by decide) (by decide)⟩

/-! ## Binding lemmas -/

theorem ToVehicleType_key (routerType : Int) :
    ∃ key, settingsKeyOf (ToVehicleType routerType) = some key := by
  simp only [ToVehicleType]
  split_ifs <;> exact ⟨_, rfl⟩

theorem makeValue_valid : ∀ n : Nat, n < 4 → makeValue (n : Int) = Outcome.ok ⟨2 ^ n⟩ := by
  decide

theorem makeValue_valid_int {option : Int} (h0 : 0 ≤ option) (h4 : option < 4) :
    ∃ n : Nat, n < 4 ∧ option = (n : Int) ∧ makeValue option = Outcome.ok ⟨2 ^ n⟩ := by
  refine ⟨option.toNat, by omega, by omega, ?_⟩
  have h := makeValue_valid option.toNat (by omega)
  rwa [Int.toNat_of_nonneg h0] at h

theorem Add_lt_256 (o : RoutingOptions) (t : Road) : (o.Add t).m_options < 256 :=
  Nat.mod_lt _ (by decide)

theorem Remove_lt_256 (o : RoutingOptions) (t : Road) : (o.Remove t).m_options < 256 :=
  Nat.mod_lt _ (by decide)

theorem nativeHasOption_after_save {routerType : Int} {key : String}
    (hk : settingsKeyOf (ToVehicleType routerType) = some key) (st : Store)
    (x : RoutingOptions) (hx : x.m_options < 256) {j : Int} {k : Nat}
    (hj : makeValue j = Outcome.ok ⟨2 ^ k⟩) :
    nativeHasOption (SaveOptions st key x) routerType j = Outcome.ok (x.Has ⟨2 ^ k⟩) := by
  simp only [nativeHasOption, LoadOptionsFromSettings_eq hk,
    LoadOptions_SaveOptions_same st key x hx, hj]

theorem nativeHasOption_of_load {routerType : Int} {st : Store} {r : RoutingOptions}
    (hload : LoadOptionsFromSettings st (ToVehicleType routerType) = Outcome.ok r)
    {j : Int} {k : Nat} (hj : makeValue j = Outcome.ok ⟨2 ^ k⟩) :
    nativeHasOption st routerType j = Outcome.ok (r.Has ⟨2 ^ k⟩) := by
  simp only [nativeHasOption, hload, hj]

/-- C12: the caller-facing add, remove and has agree. For every router-type
selector, every option index from 0 to 3 and every store in which the value
of the selected mode loads successfully (an absent value loads as the empty
set), `nativeHasOption` returns true after `nativeAddOption` and false after
`nativeRemoveOption` of the same index, and for every other valid index the
answer of `nativeHasOption` is the same before and after the add or remove. -/
theorem native_add_remove_has (st : Store) (routerType option : Int) (r : RoutingOptions)
    (h0 : 0 ≤ option) (h4 : option < 4)
    (hload : LoadOptionsFromSettings st (ToVehicleType routerType) = Outcome.ok r) :
    (∃ st', nativeAddOption st routerType option = Outcome.ok st' ∧
      nativeHasOption st' routerType option = Outcome.ok true ∧
      ∀ j : Int, 0 ≤ j → j < 4 → j ≠ option →
        nativeHasOption st' routerType j = nativeHasOption st routerType j) ∧
    (∃ st', nativeRemoveOption st routerType option = Outcome.ok st' ∧
      nativeHasOption st' routerType option = Outcome.ok false ∧
      ∀ j : Int, 0 ≤ j → j < 4 → j ≠ option →
        nativeHasOption st' routerType j = nativeHasOption st routerType j) := by
  obtain ⟨key, hk⟩ := ToVehicleType_key routerType
  obtain ⟨n, hn, hon, hmake⟩ := makeValue_valid_int h0 h4
  constructor
  · refine ⟨SaveOptions st key (r.Add ⟨2 ^ n⟩), ?_, ?_, ?_⟩
    · simp only [nativeAddOption, hload, hmake, SaveOptionsToSettings_eq hk]
    · rw [nativeHasOption_after_save hk st _ (Add_lt_256 _ _) hmake,
        Has_Add_bit r n n (by omega)]
      simp
    · intro j hj0 hj4 hne
      obtain ⟨k, hk4, hjk, hmakej⟩ := makeValue_valid_int hj0 hj4
      have hnk : n ≠ k := fun h => hne (by rw [hjk, hon, h])
      rw [nativeHasOption_after_save hk st _ (Add_lt_256 _ _) hmakej,
        nativeHasOption_of_load hload hmakej, Has_Add_bit r k n (by omega)]
      simp [hnk]
  · refine ⟨SaveOptions st key (r.Remove ⟨2 ^ n⟩), ?_, ?_, ?_⟩
    · simp only [nativeRemoveOption, hload, hmake, SaveOptionsToSettings_eq hk]
    · rw [nativeHasOption_after_save hk st _ (Remove_lt_256 _ _) hmake,
        Has_Remove_bit r n n (by omega) (by omega)]
      simp
    · intro j hj0 hj4 hne
      obtain ⟨k, hk4, hjk, hmakej⟩ := makeValue_valid_int hj0 hj4
      have hnk : n ≠ k := fun h => hne (by rw [hjk, hon, h])
      rw [nativeHasOption_after_save hk st _ (Remove_lt_256 _ _) hmakej,
        nativeHasOption_of_load hload hmakej, Has_Remove_bit r k n (by omega) (by omega)]
      simp [hnk]

theorem native_add_remove_has_witness :
    (0 : Int) ≤ 2 ∧ (2 : Int) < 4 ∧
    LoadOptionsFromSettings (SavePedestrianOptionsToSettings emptyStore ⟨5⟩) (ToVehicleType 3)
      = Outcome.ok ⟨5⟩ ∧
    nativeHasOption (SavePedestrianOptionsToSettings emptyStore ⟨5⟩) 3 2 = Outcome.ok true ∧
    (∃ st', nativeRemoveOption (SavePedestrianOptionsToSettings emptyStore ⟨5⟩) 3 2
        = Outcome.ok st' ∧
      nativeHasOption st' 3 2 = Outcome.ok false ∧
      ∀ j : Int, 0 ≤ j → j < 4 → j ≠ 2 →
        nativeHasOption st' 3 j
          = nativeHasOption (SavePedestrianOptionsToSettings emptyStore ⟨5⟩) 3 j) :=
  ⟨by decide, by decide, by decide, by decide,
    (native_add_remove_has (SavePedestrianOptionsToSettings emptyStore ⟨5⟩) 3 2 ⟨5⟩
      (by decide) (by decide) (by decide)).2⟩

theorem LoadOptions_ne_Unreachable (st : Store) (key : String) :
    LoadOptions st key ≠ Outcome.fatal Failure.Unreachable := by
  cases hg : settingsGet st key with
  | none => rw [LoadOptions_absent hg]; intro h; cases h
  | some n =>
    by_cases hn : n < 256
    · rw [LoadOptions_present_lt hg hn]; intro h; cases h
    · rw [LoadOptions_present_ge hg (by omega)]; intro h; cases h

theorem makeValue_ne_Unreachable (option : Int) :
    makeValue option ≠ Outcome.fatal Failure.Unreachable := by
  simp only [makeValue]
  split_ifs <;> intro h <;> cases h

/-- C20: the mode translation of the binding is total and never produces a
mode that the mode-to-key mapping rejects. For every integer `routerType`,
`ToVehicleType(routerType)` is Car, Pedestrian or Bicycle (Vehicle gives Car;
Pedestrian, Transit and Ruler give Pedestrian; Bicycle gives Bicycle; Count
and every other integer give Car) and never `VehicleType::Count`; so
`nativeHasOption`, `nativeAddOption` and `nativeRemoveOption` never reach the
unreachable-code failure, and with an unrecognised `routerType` they load and
save the car options. -/
theorem ToVehicleType_total (routerType option : Int) (st : Store) :
    ToVehicleType routerType ∈ [VehicleType.Car, VehicleType.Pedestrian, VehicleType.Bicycle] ∧
    ToVehicleType routerType ≠ VehicleType.Count ∧
    ToVehicleType RouterType.Vehicle.raw = VehicleType.Car ∧
    ToVehicleType RouterType.Pedestrian.raw = VehicleType.Pedestrian ∧
    ToVehicleType RouterType.Transit.raw = VehicleType.Pedestrian ∧
    ToVehicleType RouterType.Ruler.raw = VehicleType.Pedestrian ∧
    ToVehicleType RouterType.Bicycle.raw = VehicleType.Bicycle ∧
    ToVehicleType RouterType.Count.raw = VehicleType.Car ∧
    ((∀ e ∈ [RouterType.Vehicle, RouterType.Pedestrian, RouterType.Transit, RouterType.Ruler,
        RouterType.Bicycle], routerType ≠ e.raw) → ToVehicleType routerType = VehicleType.Car) ∧
    nativeHasOption st routerType option ≠ Outcome.fatal Failure.Unreachable ∧
    nativeAddOption st routerType option ≠ Outcome.fatal Failure.Unreachable ∧
    nativeRemoveOption st routerType option ≠ Outcome.fatal Failure.Unreachable ∧
    ((∀ e ∈ [RouterType.Vehicle, RouterType.Pedestrian, RouterType.Transit, RouterType.Ruler,
        RouterType.Bicycle], routerType ≠ e.raw) →
      nativeHasOption st routerType option =
        (match LoadCarOptionsFromSettings st with
          | Outcome.fatal f => Outcome.fatal f
          | Outcome.ok o =>
            match makeValue option with
            | Outcome.fatal f => Outcome.fatal f
            | Outcome.ok road => Outcome.ok (o.Has road)) ∧
      nativeAddOption st routerType option =
        (match LoadCarOptionsFromSettings st with
          | Outcome.fatal f => Outcome.fatal f
          | Outcome.ok o =>
            match makeValue option with
            | Outcome.fatal f => Outcome.fatal f
            | Outcome.ok road => Outcome.ok (SaveCarOptionsToSettings st (o.Add road))) ∧
      nativeRemoveOption st routerType option =
        (match LoadCarOptionsFromSettings st with
          | Outcome.fatal f => Outcome.fatal f
          | Outcome.ok o =>
            match makeValue option with
            | Outcome.fatal f => Outcome.fatal f
            | Outcome.ok road => Outcome.ok (SaveCarOptionsToSettings st (o.Remove road)))) := by
  obtain ⟨key, hk⟩ := ToVehicleType_key routerType
  have hmem : ToVehicleType routerType ∈
      [VehicleType.Car, VehicleType.Pedestrian, VehicleType.Bicycle] := by
    simp only [ToVehicleType]
    split_ifs <;> decide
  have hcar : (∀ e ∈ [RouterType.Vehicle, RouterType.Pedestrian, RouterType.Transit,
      RouterType.Ruler, RouterType.Bicycle], routerType ≠ e.raw) →
      ToVehicleType routerType = VehicleType.Car := by
    intro h
    have h0 := h RouterType.Vehicle (by decide)
    have h1 := h RouterType.Pedestrian (by decide)
    have h2 := h RouterType.Bicycle (by decide)
    have h3 := h RouterType.Transit (by decide)
    have h4 := h RouterType.Ruler (by decide)
    simp only [RouterType.Vehicle, RouterType.Pedestrian, RouterType.Transit,
      RouterType.Ruler, RouterType.Bicycle] at h0 h1 h2 h3 h4
    simp [ToVehicleType, RouterType.Vehicle, RouterType.Pedestrian, RouterType.Transit,
      RouterType.Ruler, RouterType.Bicycle, h0, h1, h2, h3, h4]
  refine ⟨hmem, ?_, by decide, by decide, by decide, by decide, by decide, by decide, hcar,
    ?_, ?_, ?_, ?_⟩
  · intro h
    rw [h] at hmem
    exact absurd hmem (by decide)
  · simp only [nativeHasOption, LoadOptionsFromSettings_eq hk]
    have hl := LoadOptions_ne_Unreachable st key
    have hmv := makeValue_ne_Unreachable option
    cases hL : LoadOptions st key with
    | fatal f => rw [hL] at hl; simpa using hl
    | ok o =>
      cases hM : makeValue option with
      | fatal f => rw [hM] at hmv; simpa using hmv
      | ok road => simp
  · simp only [nativeAddOption, LoadOptionsFromSettings_eq hk, SaveOptionsToSettings_eq hk]
    have hl := LoadOptions_ne_Unreachable st key
    have hmv := makeValue_ne_Unreachable option
    cases hL : LoadOptions st key with
    | fatal f => rw [hL] at hl; simpa using hl
    | ok o =>
      cases hM : makeValue option with
      | fatal f => rw [hM] at hmv; simpa using hmv
      | ok road => simp
  · simp only [nativeRemoveOption, LoadOptionsFromSettings_eq hk, SaveOptionsToSettings_eq hk]
    have hl := LoadOptions_ne_Unreachable st key
    have hmv := makeValue_ne_Unreachable option
    cases hL : LoadOptions st key with
    | fatal f => rw [hL] at hl; simpa using hl
    | ok o =>
      cases hM : makeValue option with
      | fatal f => rw [hM] at hmv; simpa using hmv
      | ok road => simp
  · intro h
    have hc := hcar h
    simp only [nativeHasOption, nativeAddOption, nativeRemoveOption, hc]
    exact ⟨rfl, rfl, rfl⟩

end routing
